import Mathlib

/-!
Verification development for the `betfair_data` repository.

The repository has two scripts:

* `record_market_ladder.py` — streams order-book snapshots for one market
  from a queue, applies a stop-condition policy, flattens each snapshot into
  five SQLite tables (`market_status`, `selection_status`,
  `available_to_back`, `available_to_lay`, `traded_volume`) and commits once
  per snapshot.
* `sql_to_parquet.py` — loads the five persisted tables, renames the size /
  status columns, outer-joins the three price facets on
  `(date_time, selection, price)`, left-joins the two status facets, sorts by
  `(date_time, selection, price)` and re-indexes.

The embedding below models dates as `Nat` timestamps (the Python code
formats `datetime` values with `strftime("%Y-%m-%d %H:%M:%S.%f")`, which is
injective to the microsecond, so an abstract totally-ordered timestamp is
faithful) and prices/sizes as integers counting hundredths: the insert
functions format every price and size with `"{:.2f}"`, so the persisted
values are exactly the decimals with two fractional digits, in bijection
with `ℤ` by scaling; the scaling preserves `== 0` comparisons, sign and
order, which is all the code inspects.
A price or size may be missing on the wire, hence `Option ℤ` in ladder
entries; in Python a missing (`None`) value makes `"{:.2f}".format` raise
`TypeError`.  SQLite's per-table `PRIMARY KEY` constraints are modelled in
the insert functions (a duplicate key raises `IntegrityError`), and the
transaction semantics of the `sqlite3` connection (changes are durable only
at `connection.commit()`; closing or abandoning the connection rolls back
anything uncommitted) is modelled by keeping only the committed tables in
the run result.
-/

namespace BetfairData

/-! ### Data model (`MarketSnapshot` as delivered by the stream listener) -/

/-- One `(price, size)` ladder entry of a runner.  Either component may be
missing (`None` in Python). -/
structure PriceSize where
  price : Option ℤ
  size : Option ℤ
deriving DecidableEq

/-- One runner (selection) inside a market book snapshot. -/
structure RunnerSnapshot where
  selection_id : Nat
  status : String
  available_to_back : List PriceSize
  available_to_lay : List PriceSize
  traded_volume : List PriceSize
deriving DecidableEq

/-- One market book snapshot dequeued from the output queue. -/
structure MarketSnapshot where
  publish_time : Nat
  status : String
  inplay : Bool
  runners : List RunnerSnapshot
deriving DecidableEq

/-! ### Persisted rows (the five SQLite tables of `create_sqlite_database`) -/

/-- A row of the `market_status` table; primary key `date_time`. -/
structure MarketStatusRow where
  date_time : Nat
  status : String
  inplay : Bool
deriving DecidableEq

/-- A row of the `selection_status` table; primary key
`(date_time, selection)`. -/
structure SelectionStatusRow where
  date_time : Nat
  selection : String
  status : String
deriving DecidableEq

/-- A row of any of the three ladder tables `available_to_back`,
`available_to_lay`, `traded_volume`; primary key
`(date_time, selection, price)`. -/
structure LadderRow where
  date_time : Nat
  selection : String
  price : ℤ
  size : ℤ
deriving DecidableEq

/-- The five tables created by `create_sqlite_database`. -/
structure Tables where
  market_status : List MarketStatusRow
  selection_status : List SelectionStatusRow
  available_to_back : List LadderRow
  available_to_lay : List LadderRow
  traded_volume : List LadderRow
deriving DecidableEq

/-- The freshly created, empty database. -/
def emptyTables : Tables := ⟨[], [], [], [], []⟩

/-- Kinds of Python exceptions the modelled code can raise:
`KeyError` (a `LookupError`) from `selections[runner.selection_id]`,
`TypeError` from `"{:.2f}".format(None)`, and `IntegrityError` from a
violated SQLite primary-key constraint. -/
inductive PyError where
  | keyError (selection_id : Nat)
  | typeError
  | integrityError
deriving DecidableEq

instance {ε α : Type} [DecidableEq ε] [DecidableEq α] :
    DecidableEq (Except ε α) := fun a b =>
  match a, b with
  | Except.error e, Except.error e' =>
    decidable_of_iff (e = e') (by simp)
  | Except.error _, Except.ok _ => isFalse (by simp)
  | Except.ok _, Except.error _ => isFalse (by simp)
  | Except.ok v, Except.ok v' =>
    decidable_of_iff (v = v') (by simp)

/-! ### The insert functions of `record_market_ladder.py` -/

/-- `insert_in_market_status_table`: unconditionally inserts one row; the
`PRIMARY KEY (date_time)` constraint rejects a duplicate timestamp. -/
def insert_in_market_status_table (T : Tables) (date_time : Nat)
    (status : String) (inplay : Bool) : Except PyError Tables :=
  if T.market_status.any fun r => decide (r.date_time = date_time) then
    Except.error PyError.integrityError
  else
    Except.ok { T with
      market_status := T.market_status ++ [⟨date_time, status, inplay⟩] }

/-- `insert_in_selection_status_table`: unconditionally inserts one row; the
`PRIMARY KEY (date_time, selection)` constraint rejects duplicates. -/
def insert_in_selection_status_table (T : Tables) (date_time : Nat)
    (selection : String) (status : String) : Except PyError Tables :=
  if T.selection_status.any fun r =>
      decide (r.date_time = date_time ∧ r.selection = selection) then
    Except.error PyError.integrityError
  else
    Except.ok { T with
      selection_status := T.selection_status ++ [⟨date_time, selection, status⟩] }

/-- `insert_in_available_to_back_table`: the Python body is
`if price != 0: cursor.execute(...)`.  A `None` price passes the
`price != 0` test (in Python `None != 0` is `True`) and then makes
`"{:.2f}".format` raise `TypeError`, so a missing price always errors,
which the outer `match` collapses into one case.  A present zero price
skips the row entirely (even if the size is missing, since the format call
is never reached).  A present non-zero price with a missing size raises
`TypeError` from the format call; otherwise the row is inserted, subject to
the `PRIMARY KEY (date_time, selection, price)` constraint. -/
def insert_in_available_to_back_table (T : Tables) (date_time : Nat)
    (selection : String) (price size : Option ℤ) : Except PyError Tables :=
  match price with
  | none => Except.error PyError.typeError
  | some p =>
    if p ≠ 0 then
      match size with
      | none => Except.error PyError.typeError
      | some s =>
        if T.available_to_back.any fun r =>
            decide (r.date_time = date_time ∧ r.selection = selection ∧
              r.price = p) then
          Except.error PyError.integrityError
        else
          Except.ok { T with
            available_to_back :=
              T.available_to_back ++ [⟨date_time, selection, p, s⟩] }
    else
      Except.ok T

/-- `insert_in_available_to_lay_table`: identical to the back insert but
targeting the `available_to_lay` table. -/
def insert_in_available_to_lay_table (T : Tables) (date_time : Nat)
    (selection : String) (price size : Option ℤ) : Except PyError Tables :=
  match price with
  | none => Except.error PyError.typeError
  | some p =>
    if p ≠ 0 then
      match size with
      | none => Except.error PyError.typeError
      | some s =>
        if T.available_to_lay.any fun r =>
            decide (r.date_time = date_time ∧ r.selection = selection ∧
              r.price = p) then
          Except.error PyError.integrityError
        else
          Except.ok { T with
            available_to_lay :=
              T.available_to_lay ++ [⟨date_time, selection, p, s⟩] }
    else
      Except.ok T

/-- `insert_in_traded_volume_table`: identical to the back insert but
targeting the `traded_volume` table. -/
def insert_in_traded_volume_table (T : Tables) (date_time : Nat)
    (selection : String) (price size : Option ℤ) : Except PyError Tables :=
  match price with
  | none => Except.error PyError.typeError
  | some p =>
    if p ≠ 0 then
      match size with
      | none => Except.error PyError.typeError
      | some s =>
        if T.traded_volume.any fun r =>
            decide (r.date_time = date_time ∧ r.selection = selection ∧
              r.price = p) then
          Except.error PyError.integrityError
        else
          Except.ok { T with
            traded_volume :=
              T.traded_volume ++ [⟨date_time, selection, p, s⟩] }
    else
      Except.ok T

/-! ### The per-snapshot loop body of `data_collection_pipeline` -/

/-- One of the three `for ... in runner.ex....` loops, parameterised by the
insert function it calls on each `(price, size)` entry. -/
def insert_ladder_rows
    (ins : Tables → Nat → String → Option ℤ → Option ℤ → Except PyError Tables)
    (publish_time : Nat) (selection : String) :
    Tables → List PriceSize → Except PyError Tables
  | T, [] => Except.ok T
  | T, e :: rest =>
    match ins T publish_time selection e.price e.size with
    | Except.error err => Except.error err
    | Except.ok T' => insert_ladder_rows ins publish_time selection T' rest

/-- The dictionary built by `get_market_info`
(`selections[runner.selection_id] = runner.runner_name`); indexing raises
`KeyError` on an unknown selection id, modelled by `none`. -/
def lookupSelection (selections : List (Nat × String)) (id : Nat) :
    Option String :=
  match selections.find? fun p => decide (p.1 = id) with
  | some p => some p.2
  | none => none

/-- The body of `for runner in market_book.runners`: look the selection name
up (a `KeyError` propagates), insert the `selection_status` row, then run
the three ladder loops. -/
def process_runner (selections : List (Nat × String)) (publish_time : Nat)
    (T : Tables) (r : RunnerSnapshot) : Except PyError Tables :=
  match lookupSelection selections r.selection_id with
  | none => Except.error (PyError.keyError r.selection_id)
  | some selection =>
    match insert_in_selection_status_table T publish_time selection r.status with
    | Except.error e => Except.error e
    | Except.ok T1 =>
      match insert_ladder_rows insert_in_available_to_back_table publish_time
          selection T1 r.available_to_back with
      | Except.error e => Except.error e
      | Except.ok T2 =>
        match insert_ladder_rows insert_in_available_to_lay_table publish_time
            selection T2 r.available_to_lay with
        | Except.error e => Except.error e
        | Except.ok T3 =>
          insert_ladder_rows insert_in_traded_volume_table publish_time
            selection T3 r.traded_volume

/-- The `for runner in market_book.runners` loop. -/
def process_runners (selections : List (Nat × String)) (publish_time : Nat) :
    Tables → List RunnerSnapshot → Except PyError Tables
  | T, [] => Except.ok T
  | T, r :: rest =>
    match process_runner selections publish_time T r with
    | Except.error e => Except.error e
    | Except.ok T' => process_runners selections publish_time T' rest

/-- Everything the loop body does to the database for one snapshot that
passed the stop condition: the `market_status` insert followed by the
runner loop.  The subsequent `connection.commit()` is modelled by the
caller (`runPipeline`) adopting the `ok` result as the new committed
state. -/
def process_snapshot (selections : List (Nat × String)) (T : Tables)
    (s : MarketSnapshot) : Except PyError Tables :=
  match insert_in_market_status_table T s.publish_time s.status s.inplay with
  | Except.error e => Except.error e
  | Except.ok T1 => process_runners selections s.publish_time T1 s.runners

/-- Whole-snapshot processing of a list of snapshots, one commit per
snapshot, short-circuiting on the first error. -/
def processAll (selections : List (Nat × String)) :
    Tables → List MarketSnapshot → Except PyError Tables
  | T, [] => Except.ok T
  | T, s :: rest =>
    match process_snapshot selections T s with
    | Except.error e => Except.error e
    | Except.ok T' => processAll selections T' rest

/-! ### The streaming loop of `data_collection_pipeline` -/

/-- The stop check at the top of the loop body:
`if allow_inplay: if market_status == 'CLOSED': break`
`else: if market_status == 'CLOSED' or market_inplay is True: break`. -/
def stop_condition (allow_inplay : Bool) (s : MarketSnapshot) : Bool :=
  if allow_inplay then decide (s.status = "CLOSED")
  else decide (s.status = "CLOSED") || s.inplay

/-- How a run of the `while True` loop ended. -/
inductive Outcome where
  /-- The stop condition broke out of the loop (normal teardown). -/
  | stopped
  /-- The modelled finite snapshot stream was exhausted (the real queue
  would block; nothing further changes the database). -/
  | exhausted
  /-- An uncaught exception propagated out of the loop; the pending
  transaction is rolled back when the process dies. -/
  | errored (e : PyError)
  /-- A `KeyboardInterrupt` was caught, breaking out of the loop;
  `connection.close()` rolls back the pending transaction. -/
  | interrupted
deriving DecidableEq

/-- The durable result of a run: the committed tables, how the loop ended,
and the value of the `market_snapshot_no` counter (number of snapshots
fully stored). -/
structure RunResult where
  committed : Tables
  outcome : Outcome
  processed : Nat
deriving DecidableEq

/-- The `while True` loop of `data_collection_pipeline`, consuming a finite
list of queued snapshots.  `intr = some n` injects a `KeyboardInterrupt`
observed while dequeuing or processing consumed snapshot number `n`
(0-based): the `except KeyboardInterrupt` clause breaks out of the loop and
teardown closes the connection, rolling back whatever that snapshot had
inserted since the last commit, so only `committed` survives.  An uncaught
exception from the loop body likewise leaves only the committed state
durable.  On `Except.ok`, `connection.commit()` makes the new tables the
committed state and the counter is incremented. -/
def runPipeline (selections : List (Nat × String)) (allow_inplay : Bool)
    (intr : Option Nat) :
    List MarketSnapshot → Nat → Tables → RunResult
  | [], n, committed => ⟨committed, Outcome.exhausted, n⟩
  | s :: rest, n, committed =>
    if intr = some n then ⟨committed, Outcome.interrupted, n⟩
    else if stop_condition allow_inplay s then ⟨committed, Outcome.stopped, n⟩
    else
      match process_snapshot selections committed s with
      | Except.error e => ⟨committed, Outcome.errored e, n⟩
      | Except.ok T' => runPipeline selections allow_inplay intr rest (n + 1) T'

/-! ### `sql_to_parquet.py` — the merger

The five loaded DataFrames are modelled as the five lists of a `Tables`
value (the merger reads exactly what the recorder wrote).  The column
renames of `merge_market_data` (`size → back_size` etc.) are reflected in
the field names of the intermediate row structures.  `pd.merge` is
modelled by `pd_merge_outer` / `pd_merge_left` below: every left row is
paired with every key-matching right row; a left row with no match keeps
its columns and gets nulls for the right columns; with `how='outer'` the
unmatched right rows are appended with nulls for the left columns. -/

/-- Row of `available_to_back ⋈ available_to_lay` (outer, on
`(date_time, selection, price)`). -/
structure BLRow where
  date_time : Nat
  selection : String
  price : ℤ
  back_size : Option ℤ
  lay_size : Option ℤ
deriving DecidableEq

/-- Row after the second outer merge, adding `traded_size`. -/
structure BLTRow where
  date_time : Nat
  selection : String
  price : ℤ
  back_size : Option ℤ
  lay_size : Option ℤ
  traded_size : Option ℤ
deriving DecidableEq

/-- Row after the left merge with `selection_status`. -/
structure BLTSRow where
  date_time : Nat
  selection : String
  price : ℤ
  back_size : Option ℤ
  lay_size : Option ℤ
  traded_size : Option ℤ
  selection_status : Option String
deriving DecidableEq

/-- Row of the final merged table (after the left merge with
`market_status`). -/
structure MergedRow where
  date_time : Nat
  selection : String
  price : ℤ
  back_size : Option ℤ
  lay_size : Option ℤ
  traded_size : Option ℤ
  selection_status : Option String
  market_status : Option String
  inplay : Option Bool
deriving DecidableEq

/-- `pd.merge(left, right, on=…, how='left')`: each left row is paired with
every right row of equal key, or kept alone (with nulls on the right
columns) when no right row matches. -/
def pd_merge_left {α β γ κ : Type} [DecidableEq κ]
    (kl : α → κ) (kr : β → κ) (both : α → β → γ) (onlyLeft : α → γ)
    (left : List α) (right : List β) : List γ :=
  left.flatMap fun a =>
    if (right.filter fun b => decide (kr b = kl a)).isEmpty then [onlyLeft a]
    else (right.filter fun b => decide (kr b = kl a)).map (both a)

/-- `pd.merge(left, right, on=…, how='outer')`: the left-join rows followed
by the right rows whose key matches no left row (with nulls on the left
columns). -/
def pd_merge_outer {α β γ κ : Type} [DecidableEq κ]
    (kl : α → κ) (kr : β → κ) (both : α → β → γ) (onlyLeft : α → γ)
    (onlyRight : β → γ) (left : List α) (right : List β) : List γ :=
  pd_merge_left kl kr both onlyLeft left right ++
    (right.filter fun b => left.all fun a => !decide (kl a = kr b)).map onlyRight

/-- The composite key `(date_time, selection, price)` of a ladder row. -/
def ladderKey (r : LadderRow) : Nat × String × ℤ :=
  (r.date_time, r.selection, r.price)

/-- The composite key of an intermediate `BLRow`. -/
def blKey (r : BLRow) : Nat × String × ℤ := (r.date_time, r.selection, r.price)

/-- The composite key of an intermediate `BLTRow`. -/
def bltKey (r : BLTRow) : Nat × String × ℤ :=
  (r.date_time, r.selection, r.price)

/-- The composite key of an intermediate `BLTSRow`. -/
def bltsKey (r : BLTSRow) : Nat × String × ℤ :=
  (r.date_time, r.selection, r.price)

/-- The composite key of a final `MergedRow`. -/
def mergedKey (r : MergedRow) : Nat × String × ℤ :=
  (r.date_time, r.selection, r.price)

/-- Columns of a `back ⋈ lay` row when both sides match. -/
def bl_both (a b : LadderRow) : BLRow :=
  ⟨a.date_time, a.selection, a.price, some a.size, some b.size⟩

/-- Columns of a `back ⋈ lay` row with no matching lay row. -/
def bl_left (a : LadderRow) : BLRow :=
  ⟨a.date_time, a.selection, a.price, some a.size, none⟩

/-- Columns of a `back ⋈ lay` row with no matching back row. -/
def bl_right (b : LadderRow) : BLRow :=
  ⟨b.date_time, b.selection, b.price, none, some b.size⟩

/-- Columns of a `(back ⋈ lay) ⋈ traded` row when both sides match. -/
def blt_both (a : BLRow) (b : LadderRow) : BLTRow :=
  ⟨a.date_time, a.selection, a.price, a.back_size, a.lay_size, some b.size⟩

/-- Columns of a `(back ⋈ lay) ⋈ traded` row with no matching traded
row. -/
def blt_left (a : BLRow) : BLTRow :=
  ⟨a.date_time, a.selection, a.price, a.back_size, a.lay_size, none⟩

/-- Columns of a `(back ⋈ lay) ⋈ traded` row with no matching price
row. -/
def blt_right (b : LadderRow) : BLTRow :=
  ⟨b.date_time, b.selection, b.price, none, none, some b.size⟩

/-- Columns of a price row joined with a matching `selection_status`
row. -/
def blts_both (a : BLTRow) (b : SelectionStatusRow) : BLTSRow :=
  ⟨a.date_time, a.selection, a.price, a.back_size, a.lay_size,
    a.traded_size, some b.status⟩

/-- Columns of a price row with no matching `selection_status` row. -/
def blts_left (a : BLTRow) : BLTSRow :=
  ⟨a.date_time, a.selection, a.price, a.back_size, a.lay_size,
    a.traded_size, none⟩

/-- Columns of a price row joined with a matching `market_status` row. -/
def merged_both (a : BLTSRow) (b : MarketStatusRow) : MergedRow :=
  ⟨a.date_time, a.selection, a.price, a.back_size, a.lay_size,
    a.traded_size, a.selection_status, some b.status, some b.inplay⟩

/-- Columns of a price row with no matching `market_status` row. -/
def merged_left (a : BLTSRow) : MergedRow :=
  ⟨a.date_time, a.selection, a.price, a.back_size, a.lay_size,
    a.traded_size, a.selection_status, none, none⟩

/-- The key `(date_time, selection)` of a `selection_status` row. -/
def ssKey (r : SelectionStatusRow) : Nat × String := (r.date_time, r.selection)

/-- The key `(date_time, selection)` of a price row, for the
`selection_status` join. -/
def bltKey2 (r : BLTRow) : Nat × String := (r.date_time, r.selection)

/-- First merge: `available_to_back ⋈ available_to_lay`, outer, on
`(date_time, selection, price)`. -/
def mergeBackLay (back lay : List LadderRow) : List BLRow :=
  pd_merge_outer ladderKey ladderKey bl_both bl_left bl_right back lay

/-- Second merge: the previous result ⋈ `traded_volume`, outer, on
`(date_time, selection, price)`. -/
def mergeTraded (bl : List BLRow) (traded : List LadderRow) : List BLTRow :=
  pd_merge_outer blKey ladderKey blt_both blt_left blt_right bl traded

/-- Third merge: left join with `selection_status` on
`(date_time, selection)`. -/
def mergeSelectionStatus (blt : List BLTRow) (ss : List SelectionStatusRow) :
    List BLTSRow :=
  pd_merge_left bltKey2 ssKey blts_both blts_left blt ss

/-- Fourth merge: left join with `market_status` on `date_time` alone. -/
def mergeMarketStatus (blts : List BLTSRow) (ms : List MarketStatusRow) :
    List MergedRow :=
  pd_merge_left (fun a => a.date_time) (fun b => b.date_time)
    merged_both merged_left blts ms

/-- The four `pd.merge` calls of `merge_market_data`, before sorting. -/
def merge_market_data_unsorted (md : Tables) : List MergedRow :=
  mergeMarketStatus
    (mergeSelectionStatus
      (mergeTraded (mergeBackLay md.available_to_back md.available_to_lay)
        md.traded_volume)
      md.selection_status)
    md.market_status

/-- The ascending lexicographic order on
`(date_time, selection, price)` used by
`sort_values(by=['date_time', 'selection', 'price'])`. -/
def rowLe (r r' : MergedRow) : Prop :=
  r.date_time < r'.date_time ∨
    (r.date_time = r'.date_time ∧
      (r.selection < r'.selection ∨
        (r.selection = r'.selection ∧ r.price ≤ r'.price)))

instance : DecidableRel rowLe := fun r r' =>
  inferInstanceAs (Decidable (r.date_time < r'.date_time ∨
    (r.date_time = r'.date_time ∧
      (r.selection < r'.selection ∨
        (r.selection = r'.selection ∧ r.price ≤ r'.price)))))

/-- `merge_market_data`: the four merges, then
`sort_values(by=['date_time', 'selection', 'price'])` followed by
`reset_index(drop=True)` (in the list embedding the index is the list
position, so re-indexing is implicit). -/
def merge_market_data (md : Tables) : List MergedRow :=
  List.insertionSort rowLe (merge_market_data_unsorted md)

/-! ### The `MarketData` class of `sql_to_parquet.py`

`_load_market_data` reads the five tables out of the zipped SQLite file;
its result is determined by the file's content, modelled as a `Tables`
value attached to the zip path.  The class keeps five optional DataFrames,
a `data_is_loaded` flag, and each property loads on first access.  The
`load_count` field is not a Python attribute: it counts invocations of
`load_data` (each of which re-reads the file), making "the data is not
reloaded" observable in the model. -/

/-- The mutable attributes of a `MarketData` instance. -/
structure MarketDataState where
  data_is_loaded : Bool
  _market_status : Option (List MarketStatusRow)
  _selection_status : Option (List SelectionStatusRow)
  _available_to_back : Option (List LadderRow)
  _available_to_lay : Option (List LadderRow)
  _traded_volume : Option (List LadderRow)
  load_count : Nat
deriving DecidableEq

/-- The state established by `MarketData.__init__`. -/
def marketDataInit : MarketDataState :=
  ⟨false, none, none, none, none, none, 0⟩

/-- `MarketData.load_data`: assigns all five DataFrames from
`_load_market_data(self.zip_file)` and sets `data_is_loaded = True`.
`Z` is the content of the zip file. -/
def load_data (Z : Tables) (st : MarketDataState) : MarketDataState :=
  { data_is_loaded := true
    _market_status := some Z.market_status
    _selection_status := some Z.selection_status
    _available_to_back := some Z.available_to_back
    _available_to_lay := some Z.available_to_lay
    _traded_volume := some Z.traded_volume
    load_count := st.load_count + 1 }

/-- The `if not self.data_is_loaded: self.load_data()` guard shared by all
five properties. -/
def ensure_loaded (Z : Tables) (st : MarketDataState) : MarketDataState :=
  if st.data_is_loaded then st else load_data Z st

/-- The `market_status` property: returned value and post-state. -/
def market_status_property (Z : Tables) (st : MarketDataState) :
    Option (List MarketStatusRow) × MarketDataState :=
  let st' := ensure_loaded Z st
  (st'._market_status, st')

/-- The `selection_status` property: returned value and post-state. -/
def selection_status_property (Z : Tables) (st : MarketDataState) :
    Option (List SelectionStatusRow) × MarketDataState :=
  let st' := ensure_loaded Z st
  (st'._selection_status, st')

/-- The `available_to_back` property: returned value and post-state. -/
def available_to_back_property (Z : Tables) (st : MarketDataState) :
    Option (List LadderRow) × MarketDataState :=
  let st' := ensure_loaded Z st
  (st'._available_to_back, st')

/-- The `available_to_lay` property: returned value and post-state. -/
def available_to_lay_property (Z : Tables) (st : MarketDataState) :
    Option (List LadderRow) × MarketDataState :=
  let st' := ensure_loaded Z st
  (st'._available_to_lay, st')

/-- The `traded_volume` property: returned value and post-state. -/
def traded_volume_property (Z : Tables) (st : MarketDataState) :
    Option (List LadderRow) × MarketDataState :=
  let st' := ensure_loaded Z st
  (st'._traded_volume, st')

/-! ### Predicates used by the theorems -/

/-- No persisted ladder row carries a zero price, in any of the three
price-bearing tables. -/
def ZeroFree (T : Tables) : Prop :=
  (∀ r ∈ T.available_to_back, r.price ≠ 0) ∧
  (∀ r ∈ T.available_to_lay, r.price ≠ 0) ∧
  (∀ r ∈ T.traded_volume, r.price ≠ 0)

/-- The single row a left join produces for a left row `a` when the right
table has at most one match per key: the match found, or nulls. -/
def left_join_row {α β γ κ : Type} [DecidableEq κ]
    (kl : α → κ) (kr : β → κ) (both : α → β → γ) (onlyLeft : α → γ)
    (right : List β) (a : α) : γ :=
  match right.find? fun b => decide (kr b = kl a) with
  | some b => both a b
  | none => onlyLeft a

instance : IsTotal MergedRow rowLe := ⟨by
  intro a b
  unfold rowLe
  rcases lt_trichotomy a.date_time b.date_time with h | h | h
  · exact Or.inl (Or.inl h)
  · rcases lt_trichotomy a.selection b.selection with h2 | h2 | h2
    · exact Or.inl (Or.inr ⟨h, Or.inl h2⟩)
    · rcases le_total a.price b.price with h3 | h3
      · exact Or.inl (Or.inr ⟨h, Or.inr ⟨h2, h3⟩⟩)
      · exact Or.inr (Or.inr ⟨h.symm, Or.inr ⟨h2.symm, h3⟩⟩)
    · exact Or.inr (Or.inr ⟨h.symm, Or.inl h2⟩)
  · exact Or.inr (Or.inl h)⟩

instance : IsTrans MergedRow rowLe := ⟨by
  intro a b c hab hbc
  unfold rowLe at hab hbc ⊢
  rcases hab with h1 | ⟨e1, h1⟩
  · rcases hbc with h2 | ⟨e2, h2⟩
    · exact Or.inl (h1.trans h2)
    · exact Or.inl (by rw [← e2]; exact h1)
  · rcases hbc with h2 | ⟨e2, h2⟩
    · exact Or.inl (by rw [e1]; exact h2)
    · refine Or.inr ⟨e1.trans e2, ?_⟩
      rcases h1 with h1 | ⟨f1, h1⟩
      · rcases h2 with h2 | ⟨f2, h2⟩
        · exact Or.inl (h1.trans h2)
        · exact Or.inl (by rw [← f2]; exact h1)
      · rcases h2 with h2 | ⟨f2, h2⟩
        · exact Or.inl (by rw [f1]; exact h2)
        · exact Or.inr ⟨f1.trans f2, h1.trans h2⟩⟩

/-! ### Characterisation of the insert functions -/

lemma insert_market_ok {T T' : Tables} {dt : Nat} {st : String} {ip : Bool}
    (h : insert_in_market_status_table T dt st ip = Except.ok T') :
    T'.market_status = T.market_status ++ [⟨dt, st, ip⟩] ∧
    T'.selection_status = T.selection_status ∧
    T'.available_to_back = T.available_to_back ∧
    T'.available_to_lay = T.available_to_lay ∧
    T'.traded_volume = T.traded_volume := by
  unfold insert_in_market_status_table at h
  split at h
  · exact absurd h (by simp)
  · cases h
    simp

lemma insert_selection_ok {T T' : Tables} {dt : Nat} {sel st : String}
    (h : insert_in_selection_status_table T dt sel st = Except.ok T') :
    T'.selection_status = T.selection_status ++ [⟨dt, sel, st⟩] ∧
    T'.market_status = T.market_status ∧
    T'.available_to_back = T.available_to_back ∧
    T'.available_to_lay = T.available_to_lay ∧
    T'.traded_volume = T.traded_volume := by
  unfold insert_in_selection_status_table at h
  split at h
  · exact absurd h (by simp)
  · cases h
    simp

lemma insert_back_ok {T T' : Tables} {dt : Nat} {sel : String}
    {price size : Option ℤ}
    (h : insert_in_available_to_back_table T dt sel price size = Except.ok T') :
    T'.market_status = T.market_status ∧
    T'.selection_status = T.selection_status ∧
    T'.available_to_lay = T.available_to_lay ∧
    T'.traded_volume = T.traded_volume ∧
    (T'.available_to_back = T.available_to_back ∨
      ∃ p s, price = some p ∧ size = some s ∧ p ≠ 0 ∧
        T'.available_to_back = T.available_to_back ++ [⟨dt, sel, p, s⟩]) := by
  unfold insert_in_available_to_back_table at h
  cases price with
  | none => exact absurd h (by simp)
  | some p =>
    dsimp only at h
    by_cases hz : p ≠ 0
    · rw [if_pos hz] at h
      cases size with
      | none => exact absurd h (by simp)
      | some s =>
        dsimp only at h
        split at h
        · exact absurd h (by simp)
        · cases h
          exact ⟨rfl, rfl, rfl, rfl, Or.inr ⟨p, s, rfl, rfl, hz, rfl⟩⟩
    · rw [if_neg hz] at h
      cases h
      exact ⟨rfl, rfl, rfl, rfl, Or.inl rfl⟩

lemma insert_lay_ok {T T' : Tables} {dt : Nat} {sel : String}
    {price size : Option ℤ}
    (h : insert_in_available_to_lay_table T dt sel price size = Except.ok T') :
    T'.market_status = T.market_status ∧
    T'.selection_status = T.selection_status ∧
    T'.available_to_back = T.available_to_back ∧
    T'.traded_volume = T.traded_volume ∧
    (T'.available_to_lay = T.available_to_lay ∨
      ∃ p s, price = some p ∧ size = some s ∧ p ≠ 0 ∧
        T'.available_to_lay = T.available_to_lay ++ [⟨dt, sel, p, s⟩]) := by
  unfold insert_in_available_to_lay_table at h
  cases price with
  | none => exact absurd h (by simp)
  | some p =>
    dsimp only at h
    by_cases hz : p ≠ 0
    · rw [if_pos hz] at h
      cases size with
      | none => exact absurd h (by simp)
      | some s =>
        dsimp only at h
        split at h
        · exact absurd h (by simp)
        · cases h
          exact ⟨rfl, rfl, rfl, rfl, Or.inr ⟨p, s, rfl, rfl, hz, rfl⟩⟩
    · rw [if_neg hz] at h
      cases h
      exact ⟨rfl, rfl, rfl, rfl, Or.inl rfl⟩

lemma insert_traded_ok {T T' : Tables} {dt : Nat} {sel : String}
    {price size : Option ℤ}
    (h : insert_in_traded_volume_table T dt sel price size = Except.ok T') :
    T'.market_status = T.market_status ∧
    T'.selection_status = T.selection_status ∧
    T'.available_to_back = T.available_to_back ∧
    T'.available_to_lay = T.available_to_lay ∧
    (T'.traded_volume = T.traded_volume ∨
      ∃ p s, price = some p ∧ size = some s ∧ p ≠ 0 ∧
        T'.traded_volume = T.traded_volume ++ [⟨dt, sel, p, s⟩]) := by
  unfold insert_in_traded_volume_table at h
  cases price with
  | none => exact absurd h (by simp)
  | some p =>
    dsimp only at h
    by_cases hz : p ≠ 0
    · rw [if_pos hz] at h
      cases size with
      | none => exact absurd h (by simp)
      | some s =>
        dsimp only at h
        split at h
        · exact absurd h (by simp)
        · cases h
          exact ⟨rfl, rfl, rfl, rfl, Or.inr ⟨p, s, rfl, rfl, hz, rfl⟩⟩
    · rw [if_neg hz] at h
      cases h
      exact ⟨rfl, rfl, rfl, rfl, Or.inl rfl⟩

/-! ### Behaviour of the loops over a runner's ladders and runners -/

lemma insert_ladder_rows_statuses
    {ins : Tables → Nat → String → Option ℤ → Option ℤ → Except PyError Tables}
    (hins : ∀ T T' dt sel p s, ins T dt sel p s = Except.ok T' →
      T'.market_status = T.market_status ∧
      T'.selection_status = T.selection_status)
    {pt : Nat} {sel : String} :
    ∀ {es : List PriceSize} {T T' : Tables},
      insert_ladder_rows ins pt sel T es = Except.ok T' →
      T'.market_status = T.market_status ∧
      T'.selection_status = T.selection_status := by
  intro es
  induction es with
  | nil =>
    intro T T' h
    unfold insert_ladder_rows at h
    cases h
    exact ⟨rfl, rfl⟩
  | cons e rest ih =>
    intro T T' h
    unfold insert_ladder_rows at h
    cases hins' : ins T pt sel e.price e.size with
    | error err => rw [hins'] at h; exact absurd h (by simp)
    | ok T1 =>
      rw [hins'] at h
      have h1 := hins _ _ _ _ _ _ hins'
      have h2 := ih h
      exact ⟨h2.1.trans h1.1, h2.2.trans h1.2⟩

lemma insert_ladder_rows_zeroFree
    {ins : Tables → Nat → String → Option ℤ → Option ℤ → Except PyError Tables}
    (hins : ∀ T T' dt sel p s, ins T dt sel p s = Except.ok T' →
      ZeroFree T → ZeroFree T')
    {pt : Nat} {sel : String} :
    ∀ {es : List PriceSize} {T T' : Tables},
      insert_ladder_rows ins pt sel T es = Except.ok T' →
      ZeroFree T → ZeroFree T' := by
  intro es
  induction es with
  | nil =>
    intro T T' h hz
    unfold insert_ladder_rows at h
    cases h
    exact hz
  | cons e rest ih =>
    intro T T' h hz
    unfold insert_ladder_rows at h
    cases hins' : ins T pt sel e.price e.size with
    | error err => rw [hins'] at h; exact absurd h (by simp)
    | ok T1 =>
      rw [hins'] at h
      exact ih h (hins _ _ _ _ _ _ hins' hz)

lemma insert_back_statuses (T T' : Tables) (dt : Nat) (sel : String)
    (p s : Option ℤ)
    (h : insert_in_available_to_back_table T dt sel p s = Except.ok T') :
    T'.market_status = T.market_status ∧
    T'.selection_status = T.selection_status :=
  ⟨(insert_back_ok h).1, (insert_back_ok h).2.1⟩

lemma insert_lay_statuses (T T' : Tables) (dt : Nat) (sel : String)
    (p s : Option ℤ)
    (h : insert_in_available_to_lay_table T dt sel p s = Except.ok T') :
    T'.market_status = T.market_status ∧
    T'.selection_status = T.selection_status :=
  ⟨(insert_lay_ok h).1, (insert_lay_ok h).2.1⟩

lemma insert_traded_statuses (T T' : Tables) (dt : Nat) (sel : String)
    (p s : Option ℤ)
    (h : insert_in_traded_volume_table T dt sel p s = Except.ok T') :
    T'.market_status = T.market_status ∧
    T'.selection_status = T.selection_status :=
  ⟨(insert_traded_ok h).1, (insert_traded_ok h).2.1⟩

lemma process_runner_statuses {selections : List (Nat × String)} {pt : Nat}
    {T T' : Tables} {r : RunnerSnapshot}
    (h : process_runner selections pt T r = Except.ok T') :
    T'.market_status = T.market_status ∧
    T'.selection_status.length = T.selection_status.length + 1 := by
  unfold process_runner at h
  cases hl : lookupSelection selections r.selection_id with
  | none => rw [hl] at h; exact absurd h (by simp)
  | some name =>
    rw [hl] at h
    dsimp only at h
    cases h1 : insert_in_selection_status_table T pt name r.status with
    | error e => rw [h1] at h; exact absurd h (by simp)
    | ok T1 =>
      rw [h1] at h
      dsimp only at h
      cases h2 : insert_ladder_rows insert_in_available_to_back_table pt name
          T1 r.available_to_back with
      | error e => rw [h2] at h; exact absurd h (by simp)
      | ok T2 =>
        rw [h2] at h
        dsimp only at h
        cases h3 : insert_ladder_rows insert_in_available_to_lay_table pt name
            T2 r.available_to_lay with
        | error e => rw [h3] at h; exact absurd h (by simp)
        | ok T3 =>
          rw [h3] at h
          dsimp only at h
          have s1 := insert_selection_ok h1
          have s2 := insert_ladder_rows_statuses insert_back_statuses h2
          have s3 := insert_ladder_rows_statuses insert_lay_statuses h3
          have s4 := insert_ladder_rows_statuses insert_traded_statuses h
          constructor
          · rw [s4.1, s3.1, s2.1, s1.2.1]
          · rw [s4.2, s3.2, s2.2, s1.1]
            simp

lemma process_runners_statuses {selections : List (Nat × String)} {pt : Nat} :
    ∀ {rs : List RunnerSnapshot} {T T' : Tables},
      process_runners selections pt T rs = Except.ok T' →
      T'.market_status = T.market_status ∧
      T'.selection_status.length = T.selection_status.length + rs.length := by
  intro rs
  induction rs with
  | nil =>
    intro T T' h
    unfold process_runners at h
    cases h
    simp
  | cons r rest ih =>
    intro T T' h
    unfold process_runners at h
    cases hr : process_runner selections pt T r with
    | error e => rw [hr] at h; exact absurd h (by simp)
    | ok T1 =>
      rw [hr] at h
      have s1 := process_runner_statuses hr
      have s2 := ih h
      constructor
      · rw [s2.1, s1.1]
      · rw [s2.2, s1.2]
        simp
        omega

/-- Core of claim C3: a successfully processed snapshot appends exactly one
`market_status` row, keyed by its publish time, and exactly one
`selection_status` row per runner. -/
lemma process_snapshot_statuses {selections : List (Nat × String)}
    {T T' : Tables} {s : MarketSnapshot}
    (h : process_snapshot selections T s = Except.ok T') :
    T'.market_status =
      T.market_status ++ [⟨s.publish_time, s.status, s.inplay⟩] ∧
    T'.selection_status.length =
      T.selection_status.length + s.runners.length := by
  unfold process_snapshot at h
  cases h1 : insert_in_market_status_table T s.publish_time s.status s.inplay with
  | error e => rw [h1] at h; exact absurd h (by simp)
  | ok T1 =>
    rw [h1] at h
    have m1 := insert_market_ok h1
    have m2 := process_runners_statuses h
    constructor
    · rw [m2.1, m1.1]
    · rw [m2.2, m1.2.1]

/-! ### Preservation of `ZeroFree` along the pipeline -/

lemma insert_market_zeroFree (T T' : Tables) (dt : Nat) (st : String)
    (ip : Bool) (h : insert_in_market_status_table T dt st ip = Except.ok T')
    (hz : ZeroFree T) : ZeroFree T' := by
  obtain ⟨-, -, h3, h4, h5⟩ := insert_market_ok h
  exact ⟨h3 ▸ hz.1, h4 ▸ hz.2.1, h5 ▸ hz.2.2⟩

lemma insert_selection_zeroFree (T T' : Tables) (dt : Nat) (sel st : String)
    (h : insert_in_selection_status_table T dt sel st = Except.ok T')
    (hz : ZeroFree T) : ZeroFree T' := by
  obtain ⟨-, -, h3, h4, h5⟩ := insert_selection_ok h
  exact ⟨h3 ▸ hz.1, h4 ▸ hz.2.1, h5 ▸ hz.2.2⟩

lemma insert_back_zeroFree (T T' : Tables) (dt : Nat) (sel : String)
    (p s : Option ℤ)
    (h : insert_in_available_to_back_table T dt sel p s = Except.ok T')
    (hz : ZeroFree T) : ZeroFree T' := by
  obtain ⟨-, -, h3, h4, h5⟩ := insert_back_ok h
  refine ⟨?_, h3 ▸ hz.2.1, h4 ▸ hz.2.2⟩
  rcases h5 with h5 | ⟨p', s', -, -, hp', h5⟩
  · exact h5 ▸ hz.1
  · rw [h5]
    intro r hr
    rcases List.mem_append.1 hr with hr | hr
    · exact hz.1 r hr
    · simp only [List.mem_singleton] at hr
      subst hr
      exact hp'

lemma insert_lay_zeroFree (T T' : Tables) (dt : Nat) (sel : String)
    (p s : Option ℤ)
    (h : insert_in_available_to_lay_table T dt sel p s = Except.ok T')
    (hz : ZeroFree T) : ZeroFree T' := by
  obtain ⟨-, -, h3, h4, h5⟩ := insert_lay_ok h
  refine ⟨h3 ▸ hz.1, ?_, h4 ▸ hz.2.2⟩
  rcases h5 with h5 | ⟨p', s', -, -, hp', h5⟩
  · exact h5 ▸ hz.2.1
  · rw [h5]
    intro r hr
    rcases List.mem_append.1 hr with hr | hr
    · exact hz.2.1 r hr
    · simp only [List.mem_singleton] at hr
      subst hr
      exact hp'

lemma insert_traded_zeroFree (T T' : Tables) (dt : Nat) (sel : String)
    (p s : Option ℤ)
    (h : insert_in_traded_volume_table T dt sel p s = Except.ok T')
    (hz : ZeroFree T) : ZeroFree T' := by
  obtain ⟨-, -, h3, h4, h5⟩ := insert_traded_ok h
  refine ⟨h3 ▸ hz.1, h4 ▸ hz.2.1, ?_⟩
  rcases h5 with h5 | ⟨p', s', -, -, hp', h5⟩
  · exact h5 ▸ hz.2.2
  · rw [h5]
    intro r hr
    rcases List.mem_append.1 hr with hr | hr
    · exact hz.2.2 r hr
    · simp only [List.mem_singleton] at hr
      subst hr
      exact hp'

lemma process_runner_zeroFree {selections : List (Nat × String)} {pt : Nat}
    {T T' : Tables} {r : RunnerSnapshot}
    (h : process_runner selections pt T r = Except.ok T')
    (hz : ZeroFree T) : ZeroFree T' := by
  unfold process_runner at h
  cases hl : lookupSelection selections r.selection_id with
  | none => rw [hl] at h; exact absurd h (by simp)
  | some name =>
    rw [hl] at h
    dsimp only at h
    cases h1 : insert_in_selection_status_table T pt name r.status with
    | error e => rw [h1] at h; exact absurd h (by simp)
    | ok T1 =>
      rw [h1] at h
      dsimp only at h
      cases h2 : insert_ladder_rows insert_in_available_to_back_table pt name
          T1 r.available_to_back with
      | error e => rw [h2] at h; exact absurd h (by simp)
      | ok T2 =>
        rw [h2] at h
        dsimp only at h
        cases h3 : insert_ladder_rows insert_in_available_to_lay_table pt name
            T2 r.available_to_lay with
        | error e => rw [h3] at h; exact absurd h (by simp)
        | ok T3 =>
          rw [h3] at h
          dsimp only at h
          have z1 := insert_selection_zeroFree _ _ _ _ _ h1 hz
          have z2 := insert_ladder_rows_zeroFree insert_back_zeroFree h2 z1
          have z3 := insert_ladder_rows_zeroFree insert_lay_zeroFree h3 z2
          exact insert_ladder_rows_zeroFree insert_traded_zeroFree h z3

lemma process_runners_zeroFree {selections : List (Nat × String)} {pt : Nat} :
    ∀ {rs : List RunnerSnapshot} {T T' : Tables},
      process_runners selections pt T rs = Except.ok T' →
      ZeroFree T → ZeroFree T' := by
  intro rs
  induction rs with
  | nil =>
    intro T T' h hz
    unfold process_runners at h
    cases h
    exact hz
  | cons r rest ih =>
    intro T T' h hz
    unfold process_runners at h
    cases hr : process_runner selections pt T r with
    | error e => rw [hr] at h; exact absurd h (by simp)
    | ok T1 =>
      rw [hr] at h
      exact ih h (process_runner_zeroFree hr hz)

lemma process_snapshot_zeroFree {selections : List (Nat × String)}
    {T T' : Tables} {s : MarketSnapshot}
    (h : process_snapshot selections T s = Except.ok T')
    (hz : ZeroFree T) : ZeroFree T' := by
  unfold process_snapshot at h
  cases h1 : insert_in_market_status_table T s.publish_time s.status s.inplay with
  | error e => rw [h1] at h; exact absurd h (by simp)
  | ok T1 =>
    rw [h1] at h
    exact process_runners_zeroFree h (insert_market_zeroFree _ _ _ _ _ h1 hz)

lemma processAll_zeroFree {selections : List (Nat × String)} :
    ∀ {ss : List MarketSnapshot} {T T' : Tables},
      processAll selections T ss = Except.ok T' →
      ZeroFree T → ZeroFree T' := by
  intro ss
  induction ss with
  | nil =>
    intro T T' h hz
    unfold processAll at h
    cases h
    exact hz
  | cons s rest ih =>
    intro T T' h hz
    unfold processAll at h
    cases hs : process_snapshot selections T s with
    | error e => rw [hs] at h; exact absurd h (by simp)
    | ok T1 =>
      rw [hs] at h
      exact ih h (process_snapshot_zeroFree hs hz)

/-! ### The streaming loop: structure of a run -/

lemma processAll_append {selections : List (Nat × String)} :
    ∀ {pre : List MarketSnapshot} {tail : List MarketSnapshot}
      {T T' : Tables},
      processAll selections T pre = Except.ok T' →
      processAll selections T (pre ++ tail) = processAll selections T' tail := by
  intro pre
  induction pre with
  | nil =>
    intro tail T T' h
    unfold processAll at h
    cases h
    rfl
  | cons s rest ih =>
    intro tail T T' h
    unfold processAll at h
    cases hs : process_snapshot selections T s with
    | error e => rw [hs] at h; exact absurd h (by simp)
    | ok T1 =>
      rw [hs] at h
      dsimp only at h
      rw [List.cons_append]
      conv_lhs => unfold processAll
      rw [hs]
      dsimp only
      exact ih h

/-- Consuming a run prefix: if every snapshot of `pre` passes the stop
check, is processed successfully, and no interrupt arrives while any of
them is handled, the loop reaches the tail with the committed state and
counter advanced accordingly. -/
lemma runPipeline_append {selections : List (Nat × String)}
    {allow_inplay : Bool} {intr : Option Nat} :
    ∀ {pre tail : List MarketSnapshot} {n : Nat} {T T' : Tables},
      processAll selections T pre = Except.ok T' →
      (∀ t ∈ pre, stop_condition allow_inplay t = false) →
      (∀ i, i < pre.length → intr ≠ some (n + i)) →
      runPipeline selections allow_inplay intr (pre ++ tail) n T =
        runPipeline selections allow_inplay intr tail (n + pre.length) T' := by
  intro pre
  induction pre with
  | nil =>
    intro tail n T T' h _ _
    unfold processAll at h
    cases h
    rfl
  | cons s rest ih =>
    intro tail n T T' h hstop hintr
    unfold processAll at h
    cases hs : process_snapshot selections T s with
    | error e => rw [hs] at h; exact absurd h (by simp)
    | ok T1 =>
      rw [hs] at h
      dsimp only at h
      rw [List.cons_append]
      conv_lhs => unfold runPipeline
      rw [if_neg (by simpa using hintr 0 (by simp)),
        hstop s (List.mem_cons_self s rest)]
      simp only [Bool.false_eq_true, if_false]
      rw [hs]
      dsimp only
      rw [ih h (fun t ht => hstop t (List.mem_cons_of_mem _ ht))
        (fun i hi => by
          have := hintr (i + 1) (by simpa using Nat.succ_lt_succ hi)
          simpa [Nat.add_assoc, Nat.add_comm 1 i] using this)]
      have harith : n + 1 + rest.length = n + (s :: rest).length := by
        simp only [List.length_cons]
        omega
      rw [harith]

/-- The durable state of any run is the all-or-nothing accumulation of a
prefix of the queued snapshots: there is a decomposition of the queue such
that every snapshot of the prefix passed the stop check and was committed
whole, and the committed database is exactly the result of processing that
prefix. -/
lemma runPipeline_committed_spec {selections : List (Nat × String)}
    {allow_inplay : Bool} {intr : Option Nat} :
    ∀ {snaps : List MarketSnapshot} {n : Nat} {T : Tables},
      ∃ pre tail, snaps = pre ++ tail ∧
        (∀ t ∈ pre, stop_condition allow_inplay t = false) ∧
        processAll selections T pre =
          Except.ok (runPipeline selections allow_inplay intr snaps n T).committed ∧
        (runPipeline selections allow_inplay intr snaps n T).processed =
          n + pre.length := by
  intro snaps
  induction snaps with
  | nil =>
    intro n T
    exact ⟨[], [], by simp, by simp, rfl, by simp [runPipeline]⟩
  | cons s rest ih =>
    intro n T
    by_cases hi : intr = some n
    · have hrun : runPipeline selections allow_inplay intr (s :: rest) n T =
          ⟨T, Outcome.interrupted, n⟩ := by
        conv_lhs => unfold runPipeline
        rw [if_pos hi]
      refine ⟨[], s :: rest, by simp, by simp, ?_, ?_⟩
      · rw [hrun]
        rfl
      · rw [hrun]
        simp
    · by_cases hstop : stop_condition allow_inplay s
      · have hrun : runPipeline selections allow_inplay intr (s :: rest) n T =
            ⟨T, Outcome.stopped, n⟩ := by
          conv_lhs => unfold runPipeline
          rw [if_neg hi, if_pos hstop]
        refine ⟨[], s :: rest, by simp, by simp, ?_, ?_⟩
        · rw [hrun]
          rfl
        · rw [hrun]
          simp
      · cases hs : process_snapshot selections T s with
        | error e =>
          have hrun : runPipeline selections allow_inplay intr (s :: rest) n T =
              ⟨T, Outcome.errored e, n⟩ := by
            conv_lhs => unfold runPipeline
            rw [if_neg hi, if_neg hstop, hs]
          refine ⟨[], s :: rest, by simp, by simp, ?_, ?_⟩
          · rw [hrun]
            rfl
          · rw [hrun]
            simp
        | ok T1 =>
          obtain ⟨pre, tail, hsplit, hpre, hcommit, hcount⟩ :=
            ih (n := n + 1) (T := T1)
          have hrun : runPipeline selections allow_inplay intr (s :: rest) n T =
              runPipeline selections allow_inplay intr rest (n + 1) T1 := by
            conv_lhs => unfold runPipeline
            rw [if_neg hi, if_neg hstop, hs]
          refine ⟨s :: pre, tail, by rw [hsplit, List.cons_append], ?_, ?_, ?_⟩
          · intro t ht
            rcases List.mem_cons.1 ht with ht | ht
            · subst ht
              exact Bool.eq_false_iff.2 hstop
            · exact hpre t ht
          · conv_lhs => unfold processAll
            rw [hs]
            dsimp only
            rw [hrun]
            exact hcommit
          · rw [hrun, hcount]
            simp only [List.length_cons]
            omega

lemma process_runners_append {selections : List (Nat × String)} {pt : Nat} :
    ∀ {rpre rs : List RunnerSnapshot} {T T' : Tables},
      process_runners selections pt T rpre = Except.ok T' →
      process_runners selections pt T (rpre ++ rs) =
        process_runners selections pt T' rs := by
  intro rpre
  induction rpre with
  | nil =>
    intro rs T T' h
    unfold process_runners at h
    cases h
    rfl
  | cons r rest ih =>
    intro rs T T' h
    unfold process_runners at h
    cases hr : process_runner selections pt T r with
    | error e => rw [hr] at h; exact absurd h (by simp)
    | ok T1 =>
      rw [hr] at h
      dsimp only at h
      rw [List.cons_append]
      conv_lhs => unfold process_runners
      rw [hr]
      dsimp only
      exact ih h

/-! ## Claim theorems -/

/-- C1: in every run of the streaming pipeline, whatever the selection
directory, the in-play flag, the interrupt timing and the queued
snapshots, the persisted dataset contains no row with price exactly zero
in any of `available_to_back`, `available_to_lay` or `traded_volume`: the
insert functions emit no row when the price is `0`. -/
theorem C1_no_zero_price_rows (selections : List (Nat × String))
    (allow_inplay : Bool) (intr : Option Nat) (snaps : List MarketSnapshot) :
    ZeroFree
      (runPipeline selections allow_inplay intr snaps 0 emptyTables).committed := by
  obtain ⟨pre, tail, -, -, hcommit, -⟩ :=
    @runPipeline_committed_spec selections allow_inplay intr snaps 0 emptyTables
  exact processAll_zeroFree hcommit
    ⟨by simp [emptyTables], by simp [emptyTables], by simp [emptyTables]⟩

/-- C2: the controller stops streaming exactly when the dequeued snapshot
has `market_status == CLOSED`, or is in-play while `allow_inplay` is
false; the triggering snapshot is discarded (the committed tables are the
processing of the earlier snapshots only), no later snapshot is consumed
(the result does not depend on `rest`), and when the stop condition fails
the snapshot is consumed and processed instead. -/
theorem C2_stop_condition (selections : List (Nat × String))
    (allow_inplay : Bool) (pre rest : List MarketSnapshot)
    (s : MarketSnapshot) (T : Tables)
    (hpre : ∀ t ∈ pre, stop_condition allow_inplay t = false)
    (hok : processAll selections emptyTables pre = Except.ok T) :
    (stop_condition allow_inplay s = true ↔
      (s.status = "CLOSED" ∨ (s.inplay = true ∧ allow_inplay = false))) ∧
    (stop_condition allow_inplay s = true →
      runPipeline selections allow_inplay none (pre ++ s :: rest) 0
        emptyTables = ⟨T, Outcome.stopped, pre.length⟩) ∧
    (stop_condition allow_inplay s = false →
      runPipeline selections allow_inplay none (pre ++ s :: rest) 0
          emptyTables =
        match process_snapshot selections T s with
        | Except.error e => ⟨T, Outcome.errored e, pre.length⟩
        | Except.ok T' =>
          runPipeline selections allow_inplay none rest (pre.length + 1) T') := by
  have happ := @runPipeline_append selections allow_inplay none pre
    (s :: rest) 0 emptyTables T hok hpre (fun i _ => by simp)
  refine ⟨?_, ?_, ?_⟩
  · cases allow_inplay <;> simp [stop_condition]
  · intro hstop
    rw [happ]
    conv_lhs => unfold runPipeline
    rw [if_neg (by simp), if_pos hstop]
    simp
  · intro hstop
    rw [happ]
    conv_lhs => unfold runPipeline
    rw [if_neg (by simp), if_neg (by simp [hstop])]
    cases hps : process_snapshot selections T s with
    | error e =>
      dsimp only
      simp
    | ok T' =>
      dsimp only
      simp

/-- Witness for C2 at a concrete input: one open snapshot is committed,
an in-play snapshot with `allow_inplay = false` triggers the stop and is
discarded, and the queued `CLOSED` snapshot behind it is never consumed. -/
theorem C2_stop_condition_witness :
    (∀ t ∈ [(⟨1, "OPEN", false, []⟩ : MarketSnapshot)],
      stop_condition false t = false) ∧
    processAll [(7, "A")] emptyTables [⟨1, "OPEN", false, []⟩] =
      Except.ok ⟨[⟨1, "OPEN", false⟩], [], [], [], []⟩ ∧
    ((stop_condition false ⟨2, "OPEN", true, []⟩ = true ↔
      ((⟨2, "OPEN", true, []⟩ : MarketSnapshot).status = "CLOSED" ∨
        ((⟨2, "OPEN", true, []⟩ : MarketSnapshot).inplay = true ∧
          false = false))) ∧
    (stop_condition false ⟨2, "OPEN", true, []⟩ = true →
      runPipeline [(7, "A")] false none
          ([⟨1, "OPEN", false, []⟩] ++ ⟨2, "OPEN", true, []⟩ ::
            [⟨3, "CLOSED", false, []⟩]) 0 emptyTables =
        ⟨⟨[⟨1, "OPEN", false⟩], [], [], [], []⟩, Outcome.stopped, 1⟩) ∧
    (stop_condition false ⟨2, "OPEN", true, []⟩ = false →
      runPipeline [(7, "A")] false none
          ([⟨1, "OPEN", false, []⟩] ++ ⟨2, "OPEN", true, []⟩ ::
            [⟨3, "CLOSED", false, []⟩]) 0 emptyTables =
        match process_snapshot [(7, "A")]
            ⟨[⟨1, "OPEN", false⟩], [], [], [], []⟩ ⟨2, "OPEN", true, []⟩ with
        | Except.error e =>
          ⟨⟨[⟨1, "OPEN", false⟩], [], [], [], []⟩, Outcome.errored e, 1⟩
        | Except.ok T' =>
          runPipeline [(7, "A")] false none [⟨3, "CLOSED", false, []⟩] 2 T')) :=
  ⟨by decide, by decide,
    C2_stop_condition [(7, "A")] false [⟨1, "OPEN", false, []⟩]
      [⟨3, "CLOSED", false, []⟩] ⟨2, "OPEN", true, []⟩
      ⟨[⟨1, "OPEN", false⟩], [], [], [], []⟩ (by decide) (by decide)⟩

/-- C3: a snapshot whose processing succeeds appends exactly one
`market_status` row, keyed by the snapshot's publish time, and exactly one
`selection_status` row per runner, i.e. exactly `|runners|` such rows. -/
theorem C3_status_row_cardinality (selections : List (Nat × String))
    (T T' : Tables) (s : MarketSnapshot)
    (h : process_snapshot selections T s = Except.ok T') :
    T'.market_status =
      T.market_status ++ [⟨s.publish_time, s.status, s.inplay⟩] ∧
    T'.selection_status.length =
      T.selection_status.length + s.runners.length :=
  process_snapshot_statuses h

/-- Witness for C3 at a concrete input: a snapshot with two runners adds
one `market_status` row and two `selection_status` rows. -/
theorem C3_status_row_cardinality_witness :
    process_snapshot [(7, "A"), (8, "B")] emptyTables
        ⟨5, "OPEN", false, [⟨7, "ACTIVE", [], [], []⟩, ⟨8, "ACTIVE", [], [], []⟩]⟩ =
      Except.ok ⟨[⟨5, "OPEN", false⟩], [⟨5, "A", "ACTIVE"⟩, ⟨5, "B", "ACTIVE"⟩],
        [], [], []⟩ ∧
    (⟨[⟨5, "OPEN", false⟩], [⟨5, "A", "ACTIVE"⟩, ⟨5, "B", "ACTIVE"⟩],
        [], [], []⟩ : Tables).market_status =
      emptyTables.market_status ++ [⟨5, "OPEN", false⟩] ∧
    (⟨[⟨5, "OPEN", false⟩], [⟨5, "A", "ACTIVE"⟩, ⟨5, "B", "ACTIVE"⟩],
        [], [], []⟩ : Tables).selection_status.length =
      emptyTables.selection_status.length +
        (⟨5, "OPEN", false,
          [⟨7, "ACTIVE", [], [], []⟩, ⟨8, "ACTIVE", [], [], []⟩]⟩ :
            MarketSnapshot).runners.length :=
  ⟨by decide,
    (C3_status_row_cardinality [(7, "A"), (8, "B")] emptyTables
      ⟨[⟨5, "OPEN", false⟩], [⟨5, "A", "ACTIVE"⟩, ⟨5, "B", "ACTIVE"⟩], [], [], []⟩
      ⟨5, "OPEN", false, [⟨7, "ACTIVE", [], [], []⟩, ⟨8, "ACTIVE", [], [], []⟩]⟩
      (by decide)).1,
    (C3_status_row_cardinality [(7, "A"), (8, "B")] emptyTables
      ⟨[⟨5, "OPEN", false⟩], [⟨5, "A", "ACTIVE"⟩, ⟨5, "B", "ACTIVE"⟩], [], [], []⟩
      ⟨5, "OPEN", false, [⟨7, "ACTIVE", [], [], []⟩, ⟨8, "ACTIVE", [], [], []⟩]⟩
      (by decide)).2⟩

/-- C4: persistence is atomic per snapshot.  Whatever the run and however
it terminates (stop, exhaustion, interrupt at any point, or an error in
the middle of a snapshot), the durable dataset is exactly the result of
committing a whole prefix of the queue, snapshot by snapshot: no rows of a
partially processed snapshot are ever durably visible. -/
theorem C4_snapshot_atomicity (selections : List (Nat × String))
    (allow_inplay : Bool) (intr : Option Nat)
    (snaps : List MarketSnapshot) :
    ∃ pre tail, snaps = pre ++ tail ∧
      (∀ t ∈ pre, stop_condition allow_inplay t = false) ∧
      processAll selections emptyTables pre =
        Except.ok
          (runPipeline selections allow_inplay intr snaps 0
            emptyTables).committed ∧
      (runPipeline selections allow_inplay intr snaps 0
        emptyTables).processed = pre.length := by
  obtain ⟨pre, tail, hsplit, hstop, hcommit, hcount⟩ :=
    @runPipeline_committed_spec selections allow_inplay intr snaps 0 emptyTables
  exact ⟨pre, tail, hsplit, hstop, hcommit, by simpa using hcount⟩

/-- C5 counterexample: the code does not skip malformed ladder entries.
An entry with a negative price (here −1.00, stored as −100 hundredths) is
persisted as a row, not skipped; and an entry with a present non-zero
price but a missing size raises a `TypeError` that is not caught, so a
one-snapshot run aborts with that error instead of continuing. -/
theorem C5_counterexample :
    insert_in_available_to_back_table emptyTables 0 "A" (some (-100))
        (some 500) =
      Except.ok ⟨[], [], [⟨0, "A", -100, 500⟩], [], []⟩ ∧
    insert_in_available_to_lay_table emptyTables 0 "A" (some 200) none =
      Except.error PyError.typeError ∧
    (runPipeline [(7, "A")] false none
        [⟨1, "OPEN", false, [⟨7, "ACTIVE", [], [⟨some 200, none⟩], []⟩]⟩] 0
        emptyTables).outcome =
      Outcome.errored PyError.typeError :=
  ⟨by decide, by decide, by decide⟩

/-- C5 amended: the ladder insert functions skip exactly the entries whose
price is exactly zero (no row, no error, even with a missing size); an
entry with a present non-zero price and a present size — negative values
included — is persisted as a row whenever its key is fresh; an entry with
a missing price, or with a present non-zero price and a missing size,
raises a `TypeError` that propagates (the row is not merely skipped). -/
theorem C5_amended (T : Tables) (dt : Nat) (sel : String) (p s : ℤ)
    (hp : p ≠ 0)
    (hfreshb : ¬ T.available_to_back.any fun r =>
      decide (r.date_time = dt ∧ r.selection = sel ∧ r.price = p))
    (hfreshl : ¬ T.available_to_lay.any fun r =>
      decide (r.date_time = dt ∧ r.selection = sel ∧ r.price = p)) :
    (insert_in_available_to_back_table T dt sel (some 0) (some s) =
        Except.ok T ∧
      insert_in_available_to_lay_table T dt sel (some 0) none =
        Except.ok T) ∧
    (insert_in_available_to_back_table T dt sel (some p) (some s) =
        Except.ok { T with available_to_back :=
          T.available_to_back ++ [⟨dt, sel, p, s⟩] } ∧
      insert_in_available_to_lay_table T dt sel (some p) (some s) =
        Except.ok { T with available_to_lay :=
          T.available_to_lay ++ [⟨dt, sel, p, s⟩] }) ∧
    (insert_in_available_to_back_table T dt sel none (some s) =
        Except.error PyError.typeError ∧
      insert_in_available_to_back_table T dt sel (some p) none =
        Except.error PyError.typeError) := by
  refine ⟨⟨?_, ?_⟩, ⟨?_, ?_⟩, ?_, ?_⟩
  · simp [insert_in_available_to_back_table]
  · simp [insert_in_available_to_lay_table]
  · unfold insert_in_available_to_back_table
    dsimp only
    rw [if_pos hp]
    rw [if_neg hfreshb]
  · unfold insert_in_available_to_lay_table
    dsimp only
    rw [if_pos hp]
    rw [if_neg hfreshl]
  · rfl
  · unfold insert_in_available_to_back_table
    dsimp only
    rw [if_pos hp]

/-- Witness for the amended C5 at a concrete input: price −3.00, size
−7.00 (stored as hundredths) on an empty database. -/
theorem C5_amended_witness :
    ((-300 : ℤ) ≠ 0 ∧
      ¬ emptyTables.available_to_back.any fun r =>
        decide (r.date_time = 2 ∧ r.selection = "B" ∧ r.price = -300)) ∧
    (insert_in_available_to_back_table emptyTables 2 "B" (some 0)
          (some (-700)) = Except.ok emptyTables ∧
      insert_in_available_to_lay_table emptyTables 2 "B" (some 0) none =
        Except.ok emptyTables) ∧
    (insert_in_available_to_back_table emptyTables 2 "B" (some (-300))
          (some (-700)) =
        Except.ok { emptyTables with available_to_back :=
          emptyTables.available_to_back ++ [⟨2, "B", -300, -700⟩] } ∧
      insert_in_available_to_lay_table emptyTables 2 "B" (some (-300))
          (some (-700)) =
        Except.ok { emptyTables with available_to_lay :=
          emptyTables.available_to_lay ++ [⟨2, "B", -300, -700⟩] }) ∧
    (insert_in_available_to_back_table emptyTables 2 "B" none
          (some (-700)) = Except.error PyError.typeError ∧
      insert_in_available_to_back_table emptyTables 2 "B" (some (-300))
          none = Except.error PyError.typeError) :=
  ⟨⟨by decide, by decide⟩,
    C5_amended emptyTables 2 "B" (-300) (-700) (by decide) (by decide)
      (by decide)⟩

/-- C6: a snapshot whose runner references a selection id absent from the
directory built at start makes name resolution fail with the `KeyError`
(`LookupError`) kind; the error is not caught, so processing of that
snapshot fails and the whole run ends at that snapshot with the error,
committing only the snapshots before it and consuming nothing after
it. -/
theorem C6_unknown_selection_fatal (selections : List (Nat × String))
    (allow_inplay : Bool) (pre rest : List MarketSnapshot)
    (s : MarketSnapshot) (rpre rrest : List RunnerSnapshot)
    (r : RunnerSnapshot) (T T1 T2 : Tables)
    (hpre : ∀ t ∈ pre, stop_condition allow_inplay t = false)
    (hok : processAll selections emptyTables pre = Except.ok T)
    (hsstop : stop_condition allow_inplay s = false)
    (hruns : s.runners = rpre ++ r :: rrest)
    (hmkt : insert_in_market_status_table T s.publish_time s.status
      s.inplay = Except.ok T1)
    (hrpre : process_runners selections s.publish_time T1 rpre =
      Except.ok T2)
    (hlookup : lookupSelection selections r.selection_id = none) :
    process_snapshot selections T s =
      Except.error (PyError.keyError r.selection_id) ∧
    runPipeline selections allow_inplay none (pre ++ s :: rest) 0
        emptyTables =
      ⟨T, Outcome.errored (PyError.keyError r.selection_id), pre.length⟩ := by
  have hrunner : process_runner selections s.publish_time T2 r =
      Except.error (PyError.keyError r.selection_id) := by
    unfold process_runner
    rw [hlookup]
  have hsnap : process_snapshot selections T s =
      Except.error (PyError.keyError r.selection_id) := by
    unfold process_snapshot
    rw [hmkt]
    dsimp only
    rw [hruns, process_runners_append hrpre]
    conv_lhs => unfold process_runners
    rw [hrunner]
  refine ⟨hsnap, ?_⟩
  have happ := @runPipeline_append selections allow_inplay none pre
    (s :: rest) 0 emptyTables T hok hpre (fun i _ => by simp)
  rw [happ]
  conv_lhs => unfold runPipeline
  rw [if_neg (by simp), if_neg (by simp [hsstop]), hsnap]
  simp

/-- Witness for C6 at a concrete input: the directory knows only selection
1, and the first (and only) snapshot's runner has selection id 2. -/
theorem C6_unknown_selection_fatal_witness :
    ((∀ t ∈ ([] : List MarketSnapshot), stop_condition false t = false) ∧
      processAll [(1, "A")] emptyTables [] = Except.ok emptyTables ∧
      stop_condition false ⟨4, "OPEN", false, [⟨2, "ACTIVE", [], [], []⟩]⟩ =
        false ∧
      lookupSelection [(1, "A")] 2 = none) ∧
    process_snapshot [(1, "A")] emptyTables
        ⟨4, "OPEN", false, [⟨2, "ACTIVE", [], [], []⟩]⟩ =
      Except.error (PyError.keyError 2) ∧
    runPipeline [(1, "A")] false none
        ([] ++ ⟨4, "OPEN", false, [⟨2, "ACTIVE", [], [], []⟩]⟩ :: []) 0
        emptyTables =
      ⟨emptyTables, Outcome.errored (PyError.keyError 2),
        List.length ([] : List MarketSnapshot)⟩ :=
  ⟨⟨by decide, by decide, by decide, by decide⟩,
    C6_unknown_selection_fatal [(1, "A")] false [] []
      ⟨4, "OPEN", false, [⟨2, "ACTIVE", [], [], []⟩]⟩ [] []
      ⟨2, "ACTIVE", [], [], []⟩ emptyTables
      ⟨[⟨4, "OPEN", false⟩], [], [], [], []⟩
      ⟨[⟨4, "OPEN", false⟩], [], [], [], []⟩
      (by decide) (by decide) (by decide) (by decide) (by decide)
      (by decide) (by decide)⟩

/-- C9 counterexample: a `KeyboardInterrupt` observed while the first
snapshot is in flight does NOT flush that snapshot's facets; the loop
breaks and `connection.close()` rolls the uncommitted transaction back, so
the durable dataset after teardown is empty even though processing the
in-flight snapshot (had it completed and committed) would have produced
market-status, selection-status and back-ladder rows. -/
theorem C9_counterexample :
    runPipeline [(7, "A")] false (some 0)
        [⟨1, "OPEN", false, [⟨7, "ACTIVE", [⟨some 200, some 100⟩], [], []⟩]⟩]
        0 emptyTables =
      ⟨emptyTables, Outcome.interrupted, 0⟩ ∧
    process_snapshot [(7, "A")] emptyTables
        ⟨1, "OPEN", false, [⟨7, "ACTIVE", [⟨some 200, some 100⟩], [], []⟩]⟩ =
      Except.ok ⟨[⟨1, "OPEN", false⟩], [⟨1, "A", "ACTIVE"⟩],
        [⟨1, "A", 200, 100⟩], [], []⟩ :=
  ⟨by decide, by decide⟩

/-- C9 amended: an interrupt observed while dequeuing or processing
snapshot number `|pre|` stops the run there; the in-flight snapshot's
uncommitted rows are rolled back — not flushed — so the durable dataset is
exactly the previously committed snapshots (which remain intact), no
partial-snapshot state is visible, and no later snapshot is consumed. -/
theorem C9_interrupt_rolls_back (selections : List (Nat × String))
    (allow_inplay : Bool) (pre rest : List MarketSnapshot)
    (s : MarketSnapshot) (T : Tables)
    (hpre : ∀ t ∈ pre, stop_condition allow_inplay t = false)
    (hok : processAll selections emptyTables pre = Except.ok T) :
    runPipeline selections allow_inplay (some pre.length)
        (pre ++ s :: rest) 0 emptyTables =
      ⟨T, Outcome.interrupted, pre.length⟩ := by
  have happ := @runPipeline_append selections allow_inplay
    (some pre.length) pre (s :: rest) 0 emptyTables T hok hpre
    (fun i hi => by simp; omega)
  rw [happ]
  conv_lhs => unfold runPipeline
  rw [if_pos (by simp)]
  simp

/-- Witness for the amended C9 at a concrete input: the first snapshot is
committed, the interrupt arrives while the second is in flight, and the
durable dataset is exactly the first snapshot's rows. -/
theorem C9_interrupt_rolls_back_witness :
    ((∀ t ∈ [(⟨1, "OPEN", false, [⟨7, "ACTIVE", [⟨some 200, some 100⟩], [], []⟩]⟩ : MarketSnapshot)],
        stop_condition false t = false) ∧
      processAll [(7, "A")] emptyTables
          [⟨1, "OPEN", false, [⟨7, "ACTIVE", [⟨some 200, some 100⟩], [], []⟩]⟩] =
        Except.ok ⟨[⟨1, "OPEN", false⟩], [⟨1, "A", "ACTIVE"⟩],
          [⟨1, "A", 200, 100⟩], [], []⟩) ∧
    runPipeline [(7, "A")] false
        (some (List.length
          [(⟨1, "OPEN", false, [⟨7, "ACTIVE", [⟨some 200, some 100⟩], [], []⟩]⟩ : MarketSnapshot)]))
        ([⟨1, "OPEN", false, [⟨7, "ACTIVE", [⟨some 200, some 100⟩], [], []⟩]⟩] ++
          ⟨2, "OPEN", false, [⟨7, "ACTIVE", [⟨some 210, some 50⟩], [], []⟩]⟩ ::
            [⟨3, "CLOSED", false, []⟩]) 0 emptyTables =
      ⟨⟨[⟨1, "OPEN", false⟩], [⟨1, "A", "ACTIVE"⟩], [⟨1, "A", 200, 100⟩],
        [], []⟩, Outcome.interrupted,
        List.length
          [(⟨1, "OPEN", false, [⟨7, "ACTIVE", [⟨some 200, some 100⟩], [], []⟩]⟩ : MarketSnapshot)]⟩ :=
  ⟨⟨by decide, by decide⟩,
    C9_interrupt_rolls_back [(7, "A")] false
      [⟨1, "OPEN", false, [⟨7, "ACTIVE", [⟨some 200, some 100⟩], [], []⟩]⟩]
      [⟨3, "CLOSED", false, []⟩]
      ⟨2, "OPEN", false, [⟨7, "ACTIVE", [⟨some 210, some 50⟩], [], []⟩]⟩
      ⟨[⟨1, "OPEN", false⟩], [⟨1, "A", "ACTIVE"⟩], [⟨1, "A", 200, 100⟩],
        [], []⟩
      (by decide) (by decide)⟩

/-! ### Lemmas about the pandas merges -/

lemma find?_eq_head?_filter {α : Type} (p : α → Bool) :
    ∀ l : List α, l.find? p = (l.filter p).head? := by
  intro l
  induction l with
  | nil => rfl
  | cons x xs ih =>
    by_cases hx : p x = true
    · rw [List.find?_cons_of_pos _ hx, List.filter_cons_of_pos hx]
      rfl
    · rw [List.find?_cons_of_neg _ (by simpa using hx),
        List.filter_cons_of_neg (by simpa using hx)]
      exact ih

lemma filter_eq_singleton_of_countP_one {α : Type} {p : α → Bool}
    {l : List α} {a : α} (hc : l.countP p = 1) (ha : a ∈ l)
    (hpa : p a = true) : l.filter p = [a] := by
  induction l with
  | nil => cases ha
  | cons x xs ih =>
    by_cases hx : p x = true
    · rw [List.countP_cons_of_pos _ _ hx] at hc
      have hzero : xs.countP p = 0 := by omega
      have hfil : xs.filter p = [] := by
        rw [List.filter_eq_nil_iff]
        intro c hcmem
        simpa using List.countP_eq_zero.1 hzero c hcmem
      rw [List.filter_cons_of_pos hx, hfil]
      rcases List.mem_cons.1 ha with rfl | hmem
      · rfl
      · exact absurd hpa (List.countP_eq_zero.1 hzero a hmem)
    · rw [List.countP_cons_of_neg _ _ hx] at hc
      rcases List.mem_cons.1 ha with rfl | hmem
      · exact absurd hpa hx
      · rw [List.filter_cons_of_neg (by simpa using hx)]
        exact ih hc hmem

lemma mem_left_join_body_key {α β γ κ : Type} [DecidableEq κ]
    (kl : α → κ) (kr : β → κ) (kc : γ → κ)
    (both : α → β → γ) (onlyLeft : α → γ) (right : List β) (a : α)
    (hboth : ∀ a b, kc (both a b) = kl a)
    (honlyL : ∀ a, kc (onlyLeft a) = kl a) :
    ∀ c ∈ (if (right.filter fun b => decide (kr b = kl a)).isEmpty
        then [onlyLeft a]
        else (right.filter fun b => decide (kr b = kl a)).map (both a)),
      kc c = kl a := by
  intro c hc
  split at hc
  · simp only [List.mem_singleton] at hc
    subst hc
    exact honlyL a
  · obtain ⟨b, -, rfl⟩ := List.mem_map.1 hc
    exact hboth a b

lemma pd_merge_left_filter_no_right {α β γ κ : Type} [DecidableEq κ]
    (kl : α → κ) (kr : β → κ) (kc : γ → κ)
    (both : α → β → γ) (onlyLeft : α → γ)
    (left : List α) (right : List β) (k : κ)
    (hboth : ∀ a b, kc (both a b) = kl a)
    (honlyL : ∀ a, kc (onlyLeft a) = kl a)
    (hright : ∀ b ∈ right, kr b ≠ k) :
    (pd_merge_left kl kr both onlyLeft left right).filter
        (fun c => decide (kc c = k)) =
      (left.filter fun a => decide (kl a = k)).map onlyLeft := by
  induction left with
  | nil => rfl
  | cons a as ih =>
    unfold pd_merge_left at ih ⊢
    rw [List.flatMap_cons, List.filter_append, ih]
    by_cases hk : kl a = k
    · have hms : (right.filter fun b => decide (kr b = kl a)) = [] := by
        rw [List.filter_eq_nil_iff]
        intro b hb
        simp only [decide_eq_true_eq]
        rw [hk]
        exact hright b hb
      rw [hms]
      simp only [List.isEmpty_nil, if_true]
      rw [List.filter_cons_of_pos (by simp [honlyL, hk]),
        List.filter_cons_of_pos (by simp [hk]), List.filter_nil,
        List.map_cons]
      rfl
    · have hbody : ∀ c ∈ (if (right.filter fun b =>
          decide (kr b = kl a)).isEmpty then [onlyLeft a]
          else (right.filter fun b => decide (kr b = kl a)).map (both a)),
          (fun c => decide (kc c = k)) c = false := by
        intro c hc
        have := mem_left_join_body_key kl kr kc both onlyLeft right a hboth
          honlyL c hc
        simp [this, hk]
      rw [List.filter_eq_nil_iff.2 (by
          intro c hc
          simpa using hbody c hc),
        List.filter_cons_of_neg (by simp [hk]), List.nil_append]

lemma pd_merge_outer_filter_no_right {α β γ κ : Type} [DecidableEq κ]
    (kl : α → κ) (kr : β → κ) (kc : γ → κ)
    (both : α → β → γ) (onlyLeft : α → γ) (onlyRight : β → γ)
    (left : List α) (right : List β) (k : κ)
    (hboth : ∀ a b, kc (both a b) = kl a)
    (honlyL : ∀ a, kc (onlyLeft a) = kl a)
    (honlyR : ∀ b, kc (onlyRight b) = kr b)
    (hright : ∀ b ∈ right, kr b ≠ k) :
    (pd_merge_outer kl kr both onlyLeft onlyRight left right).filter
        (fun c => decide (kc c = k)) =
      (left.filter fun a => decide (kl a = k)).map onlyLeft := by
  unfold pd_merge_outer
  rw [List.filter_append,
    pd_merge_left_filter_no_right kl kr kc both onlyLeft left right k hboth
      honlyL hright]
  have hzero : ((right.filter fun b =>
      left.all fun a => !decide (kl a = kr b)).map onlyRight).filter
        (fun c => decide (kc c = k)) = [] := by
    rw [List.filter_eq_nil_iff]
    intro c hc
    obtain ⟨b, hb, rfl⟩ := List.mem_map.1 hc
    have hb' : b ∈ right := (List.mem_filter.1 hb).1
    simp only [honlyR, decide_eq_true_eq]
    exact hright b hb'
  rw [hzero, List.append_nil]

lemma pd_merge_left_eq_map {α β γ κ : Type} [DecidableEq κ]
    (kl : α → κ) (kr : β → κ) (both : α → β → γ) (onlyLeft : α → γ)
    (left : List α) (right : List β)
    (huniq : ∀ q : κ,
      (right.filter fun b => decide (kr b = q)).length ≤ 1) :
    pd_merge_left kl kr both onlyLeft left right =
      left.map (left_join_row kl kr both onlyLeft right) := by
  induction left with
  | nil => rfl
  | cons a as ih =>
    unfold pd_merge_left at ih ⊢
    rw [List.flatMap_cons, ih, List.map_cons]
    have hfind := find?_eq_head?_filter (fun b => decide (kr b = kl a)) right
    unfold left_join_row
    cases hms : right.filter fun b => decide (kr b = kl a) with
    | nil =>
      rw [hms] at hfind
      rw [hfind]
      simp
    | cons b bs =>
      have hlen := huniq (kl a)
      rw [hms] at hlen hfind
      have hbs : bs = [] := by
        cases bs with
        | nil => rfl
        | cons b2 bs2 => simp at hlen
      subst hbs
      rw [hfind]
      simp

lemma left_join_row_eq_or {α β γ κ : Type} [DecidableEq κ]
    (kl : α → κ) (kr : β → κ) (both : α → β → γ) (onlyLeft : α → γ)
    (right : List β) (a : α) :
    left_join_row kl kr both onlyLeft right a = onlyLeft a ∨
    ∃ b, left_join_row kl kr both onlyLeft right a = both a b := by
  unfold left_join_row
  cases right.find? fun b => decide (kr b = kl a) with
  | none => exact Or.inl rfl
  | some b => exact Or.inr ⟨b, rfl⟩

lemma mergeBackLay_filter_no_lay (back lay : List LadderRow)
    (k : Nat × String × ℤ) (hlay : ∀ c ∈ lay, ladderKey c ≠ k) :
    ((mergeBackLay back lay).filter fun c => decide (blKey c = k)) =
      (back.filter fun a => decide (ladderKey a = k)).map bl_left := by
  unfold mergeBackLay
  exact pd_merge_outer_filter_no_right ladderKey ladderKey blKey bl_both
    bl_left bl_right back lay k (fun a b => rfl) (fun a => rfl)
    (fun b => rfl) hlay

lemma mergeTraded_filter_no_traded (bl : List BLRow) (tv : List LadderRow)
    (k : Nat × String × ℤ) (htv : ∀ c ∈ tv, ladderKey c ≠ k) :
    ((mergeTraded bl tv).filter fun c => decide (bltKey c = k)) =
      (bl.filter fun a => decide (blKey a = k)).map blt_left := by
  unfold mergeTraded
  exact pd_merge_outer_filter_no_right blKey ladderKey bltKey blt_both
    blt_left blt_right bl tv k (fun a b => rfl) (fun a => rfl)
    (fun b => rfl) htv

lemma mergeSelectionStatus_eq_map (blt : List BLTRow)
    (ss : List SelectionStatusRow)
    (huniq : ∀ q : Nat × String,
      (ss.filter fun r => decide (ssKey r = q)).length ≤ 1) :
    mergeSelectionStatus blt ss =
      blt.map (left_join_row bltKey2 ssKey blts_both blts_left ss) := by
  unfold mergeSelectionStatus
  exact pd_merge_left_eq_map bltKey2 ssKey blts_both blts_left blt ss huniq

lemma mergeMarketStatus_eq_map (blts : List BLTSRow)
    (ms : List MarketStatusRow)
    (huniq : ∀ d : Nat,
      (ms.filter fun r => decide (r.date_time = d)).length ≤ 1) :
    mergeMarketStatus blts ms =
      blts.map (left_join_row (fun a => a.date_time) (fun b => b.date_time)
        merged_both merged_left ms) := by
  unfold mergeMarketStatus
  exact pd_merge_left_eq_map (fun a => a.date_time) (fun b => b.date_time)
    merged_both merged_left blts ms huniq

lemma ss_join_row_fields (ss : List SelectionStatusRow) (a : BLTRow) :
    bltsKey (left_join_row bltKey2 ssKey blts_both blts_left ss a) =
      bltKey a ∧
    (left_join_row bltKey2 ssKey blts_both blts_left ss a).back_size =
      a.back_size ∧
    (left_join_row bltKey2 ssKey blts_both blts_left ss a).lay_size =
      a.lay_size ∧
    (left_join_row bltKey2 ssKey blts_both blts_left ss a).traded_size =
      a.traded_size := by
  rcases left_join_row_eq_or bltKey2 ssKey blts_both blts_left ss a with
    h | ⟨b, h⟩ <;> rw [h] <;> exact ⟨rfl, rfl, rfl, rfl⟩

lemma ms_join_row_fields (ms : List MarketStatusRow) (a : BLTSRow) :
    mergedKey (left_join_row (fun x => x.date_time) (fun b => b.date_time)
      merged_both merged_left ms a) = bltsKey a ∧
    (left_join_row (fun x => x.date_time) (fun b => b.date_time)
      merged_both merged_left ms a).back_size = a.back_size ∧
    (left_join_row (fun x => x.date_time) (fun b => b.date_time)
      merged_both merged_left ms a).lay_size = a.lay_size ∧
    (left_join_row (fun x => x.date_time) (fun b => b.date_time)
      merged_both merged_left ms a).traded_size = a.traded_size := by
  rcases left_join_row_eq_or (fun x : BLTSRow => x.date_time)
      (fun b : MarketStatusRow => b.date_time) merged_both merged_left ms a
    with h | ⟨b, h⟩ <;> rw [h] <;> exact ⟨rfl, rfl, rfl, rfl⟩

/-- The filtered view of the unsorted merged table at the key of a back
row with no lay, traded match: exactly the one row carrying the back size
and nulls. -/
lemma merge_unsorted_filter_single (md : Tables) (b : LadderRow)
    (hmem : b ∈ md.available_to_back)
    (hbuniq : md.available_to_back.countP
      (fun a => decide (ladderKey a = ladderKey b)) = 1)
    (hlay : md.available_to_lay.countP
      (fun a => decide (ladderKey a = ladderKey b)) = 0)
    (htraded : md.traded_volume.countP
      (fun a => decide (ladderKey a = ladderKey b)) = 0)
    (hss : ∀ q : Nat × String,
      (md.selection_status.filter fun r => decide (ssKey r = q)).length ≤ 1)
    (hms : ∀ d : Nat,
      (md.market_status.filter fun r => decide (r.date_time = d)).length ≤ 1) :
    ((merge_market_data_unsorted md).filter fun r =>
        decide (mergedKey r = ladderKey b)) =
      [left_join_row (fun x => x.date_time) (fun r => r.date_time)
        merged_both merged_left md.market_status
        (left_join_row bltKey2 ssKey blts_both blts_left md.selection_status
          (blt_left (bl_left b)))] := by
  have hfb : (md.available_to_back.filter
      fun a => decide (ladderKey a = ladderKey b)) = [b] :=
    filter_eq_singleton_of_countP_one hbuniq hmem (by simp)
  have hlay' : ∀ c ∈ md.available_to_lay, ladderKey c ≠ ladderKey b :=
    fun c hc => by simpa using List.countP_eq_zero.1 hlay c hc
  have htv' : ∀ c ∈ md.traded_volume, ladderKey c ≠ ladderKey b :=
    fun c hc => by simpa using List.countP_eq_zero.1 htraded c hc
  have h1 := mergeBackLay_filter_no_lay md.available_to_back
    md.available_to_lay (ladderKey b) hlay'
  rw [hfb] at h1
  have h2 := mergeTraded_filter_no_traded
    (mergeBackLay md.available_to_back md.available_to_lay)
    md.traded_volume (ladderKey b) htv'
  rw [h1] at h2
  unfold merge_market_data_unsorted
  rw [mergeMarketStatus_eq_map _ _ hms, mergeSelectionStatus_eq_map _ _ hss,
    List.filter_map]
  have hcong4 : ∀ a ∈ (mergeTraded
      (mergeBackLay md.available_to_back md.available_to_lay)
      md.traded_volume).map
        (left_join_row bltKey2 ssKey blts_both blts_left
          md.selection_status),
      ((fun r => decide (mergedKey r = ladderKey b)) ∘
        left_join_row (fun x => x.date_time) (fun r => r.date_time)
          merged_both merged_left md.market_status) a =
      (fun a => decide (bltsKey a = ladderKey b)) a := by
    intro a _
    simp only [Function.comp_apply]
    rw [(ms_join_row_fields md.market_status a).1]
  rw [List.filter_congr hcong4, List.filter_map]
  have hcong3 : ∀ a ∈ mergeTraded
      (mergeBackLay md.available_to_back md.available_to_lay)
      md.traded_volume,
      ((fun a => decide (bltsKey a = ladderKey b)) ∘
        left_join_row bltKey2 ssKey blts_both blts_left
          md.selection_status) a =
      (fun a => decide (bltKey a = ladderKey b)) a := by
    intro a _
    simp only [Function.comp_apply]
    rw [(ss_join_row_fields md.selection_status a).1]
  rw [List.filter_congr hcong3, h2]
  rfl

/-- C7: the merger outer-joins the three price facets on
`(date_time, selection, price)` and left-joins the status facets, so a
back-ladder row whose key matches no lay and no traded row still yields
exactly one merged row at that key, with `back_size` equal to the recorded
size and `lay_size`, `traded_size` absent (`none`); the row is not dropped
whether or not a status row matches.  The key-uniqueness hypotheses are
the SQLite primary keys of the loaded tables. -/
theorem C7_merge_outer_preserves_back_row (md : Tables) (b : LadderRow)
    (hmem : b ∈ md.available_to_back)
    (hbuniq : md.available_to_back.countP
      (fun a => decide (ladderKey a = ladderKey b)) = 1)
    (hlay : md.available_to_lay.countP
      (fun a => decide (ladderKey a = ladderKey b)) = 0)
    (htraded : md.traded_volume.countP
      (fun a => decide (ladderKey a = ladderKey b)) = 0)
    (hss : ∀ q : Nat × String,
      (md.selection_status.filter fun r => decide (ssKey r = q)).length ≤ 1)
    (hms : ∀ d : Nat,
      (md.market_status.filter fun r => decide (r.date_time = d)).length ≤ 1) :
    (merge_market_data md).countP
        (fun r => decide (mergedKey r = ladderKey b)) = 1 ∧
    ∀ r ∈ merge_market_data md, mergedKey r = ladderKey b →
      r.back_size = some b.size ∧ r.lay_size = none ∧
        r.traded_size = none := by
  have hone := merge_unsorted_filter_single md b hmem hbuniq hlay htraded
    hss hms
  have hperm : List.Perm (merge_market_data md)
      (merge_market_data_unsorted md) :=
    List.perm_insertionSort rowLe _
  constructor
  · rw [hperm.countP_eq, List.countP_eq_length_filter, hone]
    rfl
  · intro r hr hkey
    have hr' : r ∈ merge_market_data_unsorted md := hperm.mem_iff.1 hr
    have hrf : r ∈ ((merge_market_data_unsorted md).filter fun r =>
        decide (mergedKey r = ladderKey b)) :=
      List.mem_filter.2 ⟨hr', by simp [hkey]⟩
    rw [hone, List.mem_singleton] at hrf
    subst hrf
    have f4 := ms_join_row_fields md.market_status
      (left_join_row bltKey2 ssKey blts_both blts_left md.selection_status
        (blt_left (bl_left b)))
    have f3 := ss_join_row_fields md.selection_status (blt_left (bl_left b))
    refine ⟨?_, ?_, ?_⟩
    · rw [f4.2.1, f3.2.1]
      rfl
    · rw [f4.2.2.1, f3.2.2.1]
      rfl
    · rw [f4.2.2.2, f3.2.2.2]
      rfl

/-- Witness for C7 at a concrete input: one back row `(t=1, "A", 2.50, 10)`
(price in hundredths), no lay, traded or status rows. -/
theorem C7_merge_outer_preserves_back_row_witness :
    ((⟨1, "A", 250, 10⟩ : LadderRow) ∈
        (⟨[], [], [⟨1, "A", 250, 10⟩], [], []⟩ : Tables).available_to_back ∧
      (⟨[], [], [⟨1, "A", 250, 10⟩], [], []⟩ : Tables).available_to_back.countP
        (fun a => decide (ladderKey a = ladderKey ⟨1, "A", 250, 10⟩)) = 1) ∧
    (merge_market_data ⟨[], [], [⟨1, "A", 250, 10⟩], [], []⟩).countP
        (fun r => decide (mergedKey r = ladderKey ⟨1, "A", 250, 10⟩)) = 1 ∧
    ∀ r ∈ merge_market_data ⟨[], [], [⟨1, "A", 250, 10⟩], [], []⟩,
      mergedKey r = ladderKey ⟨1, "A", 250, 10⟩ →
      r.back_size = some (⟨1, "A", 250, 10⟩ : LadderRow).size ∧
        r.lay_size = none ∧ r.traded_size = none :=
  ⟨⟨by decide, by decide⟩,
    C7_merge_outer_preserves_back_row ⟨[], [], [⟨1, "A", 250, 10⟩], [], []⟩
      ⟨1, "A", 250, 10⟩ (by decide) (by decide) (by decide) (by decide)
      (fun q => by simp [List.filter]) (fun d => by simp [List.filter])⟩

/-- C8: for every input dataset, whatever the order of the rows in the
five loaded facet tables, the table returned by the merger is sorted
ascending by the composite key `(date_time, selection, price)` (re-indexing
is implicit in the list embedding: the index is the position), and sorting
drops or duplicates nothing (the result is a permutation of the unsorted
join). -/
theorem C8_merge_sorted (md : Tables) :
    List.Sorted rowLe (merge_market_data md) ∧
    List.Perm (merge_market_data md) (merge_market_data_unsorted md) :=
  ⟨List.sorted_insertionSort rowLe _, List.perm_insertionSort rowLe _⟩

/-- C10: accessing any of the five facet properties on a freshly
constructed `MarketData` triggers `load_data`, which loads all five facets
from the file and sets `data_is_loaded`; the access returns the loaded
table, and any later property access on a loaded state returns the stored
table unchanged without reloading (the state, including the load counter,
is untouched). -/
theorem C10_lazy_loading (Z : Tables) (st : MarketDataState)
    (hld : st.data_is_loaded = true) :
    (market_status_property Z marketDataInit =
        (some Z.market_status, load_data Z marketDataInit) ∧
      selection_status_property Z marketDataInit =
        (some Z.selection_status, load_data Z marketDataInit) ∧
      available_to_back_property Z marketDataInit =
        (some Z.available_to_back, load_data Z marketDataInit) ∧
      available_to_lay_property Z marketDataInit =
        (some Z.available_to_lay, load_data Z marketDataInit) ∧
      traded_volume_property Z marketDataInit =
        (some Z.traded_volume, load_data Z marketDataInit)) ∧
    ((load_data Z marketDataInit).data_is_loaded = true ∧
      (load_data Z marketDataInit)._market_status = some Z.market_status ∧
      (load_data Z marketDataInit)._selection_status =
        some Z.selection_status ∧
      (load_data Z marketDataInit)._available_to_back =
        some Z.available_to_back ∧
      (load_data Z marketDataInit)._available_to_lay =
        some Z.available_to_lay ∧
      (load_data Z marketDataInit)._traded_volume = some Z.traded_volume ∧
      (load_data Z marketDataInit).load_count = 1) ∧
    (market_status_property Z st = (st._market_status, st) ∧
      selection_status_property Z st = (st._selection_status, st) ∧
      available_to_back_property Z st = (st._available_to_back, st) ∧
      available_to_lay_property Z st = (st._available_to_lay, st) ∧
      traded_volume_property Z st = (st._traded_volume, st)) := by
  refine ⟨⟨?_, ?_, ?_, ?_, ?_⟩, ⟨rfl, rfl, rfl, rfl, rfl, rfl, rfl⟩,
    ⟨?_, ?_, ?_, ?_, ?_⟩⟩ <;>
    simp [market_status_property, selection_status_property,
      available_to_back_property, available_to_lay_property,
      traded_volume_property, ensure_loaded, load_data, marketDataInit, hld]

/-- Witness for C10 at a concrete input: an empty dataset and the state
reached by loading it. -/
theorem C10_lazy_loading_witness :
    (load_data emptyTables marketDataInit).data_is_loaded = true ∧
    market_status_property emptyTables marketDataInit =
      (some emptyTables.market_status, load_data emptyTables marketDataInit) ∧
    market_status_property emptyTables (load_data emptyTables marketDataInit) =
      ((load_data emptyTables marketDataInit)._market_status,
        load_data emptyTables marketDataInit) :=
  ⟨by decide,
    (C10_lazy_loading emptyTables (load_data emptyTables marketDataInit)
      (by decide)).1.1,
    (C10_lazy_loading emptyTables (load_data emptyTables marketDataInit)
      (by decide)).2.2.1⟩

end BetfairData
